import Mathlib

/-!
Verification of the event model of a streaming XML library
(`src/writer/events.rs`) and of the event stream contract described in
its specification.  Rust borrowed string slices `&'a str` are modelled
as owned `String` values, as the specification's design notes direct
for languages without lifetime tracking.
-/

/-- Modelled from the spec: the XML version marker (`XmlVersion` in the
`common` module, which is not part of the given sources): one of a
fixed small set, 1.0 or 1.1. -/
inductive XmlVersion where
  | Version10
  | Version11
deriving DecidableEq

/-- Modelled from the spec: a qualified name (`Name` in the `common`
module, not part of the given sources): local name, optional namespace
prefix (`pfx`), optional namespace URI (`uri`). -/
structure Name where
  local_name : String
  pfx : Option String
  uri : Option String
deriving DecidableEq

/-- Modelled from the spec: an attribute (`Attribute` in the `common`
module, not part of the given sources): a qualified name plus an
already-unescaped text value. -/
structure Attribute where
  name : Name
  value : String
deriving DecidableEq

/-- Modelled from the spec: a namespace mapping (`Namespace` in the
`namespace` module, not part of the given sources): a mapping from
prefix to URI, the empty-string prefix denoting the default namespace.
Modelled as an association list. -/
abbrev Namespace := List (String × String)

/-- The event type `XmlEvent<'a>` of `src/writer/events.rs`: the closed
tagged union of all document constructs, one constructor per Rust enum
variant, with the same payload fields. -/
inductive XmlEvent where
  | StartDocument (version : XmlVersion) (encoding : Option String)
      (standalone : Option Bool)
  | EndDocument
  | ProcessingInstruction (name : String) (data : Option String)
  | StartElement (name : Name) (attributes : List Attribute)
      (ns : Namespace)
  | EndElement (name : Name)
  | CData (text : String)
  | Comment (text : String)
  | Characters (text : String)
  | Whitespace (text : String)
deriving DecidableEq

/-- The nine kinds of events, used to state closedness of the union. -/
inductive EventKind where
  | startDocument
  | endDocument
  | processingInstruction
  | startElement
  | endElement
  | cdata
  | comment
  | characters
  | whitespace
deriving DecidableEq

/-- The kind (variant tag) of an event. -/
def kindOf : XmlEvent → EventKind
  | .StartDocument _ _ _ => .startDocument
  | .EndDocument => .endDocument
  | .ProcessingInstruction _ _ => .processingInstruction
  | .StartElement _ _ _ => .startElement
  | .EndElement _ => .endElement
  | .CData _ => .cdata
  | .Comment _ => .comment
  | .Characters _ => .characters
  | .Whitespace _ => .whitespace

/-- Field-wise comparison of qualified names, modelling the derived
structural `PartialEq` of `Name`. -/
def beqName (a b : Name) : Bool :=
  a.local_name == b.local_name && a.pfx == b.pfx && a.uri == b.uri

/-- Field-wise comparison of attributes, modelling the derived
structural `PartialEq` of `Attribute`. -/
def beqAttr (a b : Attribute) : Bool :=
  beqName a.name b.name && a.value == b.value

/-- Position-wise comparison of attribute lists, modelling `PartialEq`
on `Vec<Attribute>`. -/
def beqAttrList : List Attribute → List Attribute → Bool
  | [], [] => true
  | x :: xs, y :: ys => beqAttr x y && beqAttrList xs ys
  | _, _ => false

/-- Comparison of version markers, modelling derived `PartialEq` on
`XmlVersion`. -/
def beqVer : XmlVersion → XmlVersion → Bool
  | .Version10, .Version10 => true
  | .Version11, .Version11 => true
  | _, _ => false

/-- The derived `PartialEq` of `XmlEvent` (`#[deriving(PartialEq)]` in
`src/writer/events.rs`): same variant tag and field-wise equality of
all payload fields; different tags compare unequal. -/
def XmlEvent.beq : XmlEvent → XmlEvent → Bool
  | .StartDocument v1 e1 s1, .StartDocument v2 e2 s2 =>
      beqVer v1 v2 && e1 == e2 && s1 == s2
  | .EndDocument, .EndDocument => true
  | .ProcessingInstruction n1 d1, .ProcessingInstruction n2 d2 =>
      n1 == n2 && d1 == d2
  | .StartElement n1 a1 ns1, .StartElement n2 a2 ns2 =>
      beqName n1 n2 && beqAttrList a1 a2
        && (ns1 : List (String × String)) == ns2
  | .EndElement n1, .EndElement n2 => beqName n1 n2
  | .CData s1, .CData s2 => s1 == s2
  | .Comment s1, .Comment s2 => s1 == s2
  | .Characters s1, .Characters s2 => s1 == s2
  | .Whitespace s1, .Whitespace s2 => s1 == s2
  | _, _ => false

/-- Whether an attribute list contains two attributes with the same
name (the duplicate the source's TODO comment documents as unchecked). -/
def hasDupNames : List Attribute → Bool
  | [] => false
  | a :: rest => rest.any (fun b => beqName a.name b.name) || hasDupNames rest

/-- Whether an event is a `StartElement` whose attribute list contains
two attributes with the same name. -/
def startElementDupOk : XmlEvent → Bool
  | .StartElement _ attrs _ => hasDupNames attrs
  | _ => false

/-- A sample qualified name used for concrete instances. -/
def sampleName : Name := ⟨"a", none, none⟩

/-- A sample attribute used for concrete instances. -/
def attrX1 : Attribute := ⟨⟨"x", none, none⟩, "1"⟩

/-- A second sample attribute with the same name, different value. -/
def attrX2 : Attribute := ⟨⟨"x", none, none⟩, "2"⟩

/-- A sample attribute with a different name. -/
def attrY : Attribute := ⟨⟨"y", none, none⟩, "3"⟩

/-- Field-wise copy of a qualified name, modelling derived `Clone`. -/
def cloneName (n : Name) : Name :=
  { local_name := n.local_name, pfx := n.pfx, uri := n.uri }

/-- Field-wise copy of an attribute, modelling derived `Clone`. -/
def cloneAttr (a : Attribute) : Attribute :=
  { name := cloneName a.name, value := a.value }

/-- Entry-wise copy of a namespace mapping, modelling derived `Clone`. -/
def cloneNs (ns : Namespace) : Namespace :=
  ns.map (fun p => (p.1, p.2))

/-- The derived `Clone` of `XmlEvent` (`#[deriving(Clone)]` in
`src/writer/events.rs`): a field-wise copy of the payload. -/
def XmlEvent.clone : XmlEvent → XmlEvent
  | .StartDocument v enc sa => .StartDocument v enc sa
  | .EndDocument => .EndDocument
  | .ProcessingInstruction t d => .ProcessingInstruction t d
  | .StartElement n attrs ns =>
      .StartElement (cloneName n) (attrs.map cloneAttr) (cloneNs ns)
  | .EndElement n => .EndElement (cloneName n)
  | .CData t => .CData t
  | .Comment t => .Comment t
  | .Characters t => .Characters t
  | .Whitespace t => .Whitespace t

/-- XML whitespace characters: space, tab, carriage return, newline. -/
def isWhitespaceChar (c : Char) : Bool :=
  c = ' ' || c = '\t' || c = '\r' || c = '\n'

/-- Whether a string consists purely of whitespace characters. -/
def isPureWhitespace (s : String) : Bool :=
  s.data.all isWhitespaceChar

/-- Whether the event, if it is a `Whitespace` event, has a payload
consisting purely of whitespace characters (`true` on other kinds). -/
def wsPayloadPure : XmlEvent → Bool
  | .Whitespace t => isPureWhitespace t
  | _ => true

/-- Modelled from the spec: the phases of the event stream contract's
state machine (the validator is described only in the specification;
it is not among the given sources).  `inElement` covers all states
`InElement(d)`, the depth `d` being the element-stack length. -/
inductive Phase where
  | start
  | inProlog
  | inElement
  | afterRoot
  | ended
deriving DecidableEq

/-- Modelled from the spec: the fatal error kinds of the contract. -/
inductive XmlError where
  | structuralViolation
  | unboundPfx
deriving DecidableEq

/-- Modelled from the spec: the consumer-owned state of the event
stream contract: current phase, the element stack of open qualified
names (most recent first), and the namespace scope stack of mapping
frames (innermost first). -/
structure ContractState where
  phase : Phase
  eltStack : List Name
  nsStack : List Namespace
deriving DecidableEq

/-- Modelled from the spec: `resolve(prefix)` on a stack of namespace
frames — the innermost frame binding the prefix wins; no match in any
frame means the prefix is unbound. -/
def resolveStack : List Namespace → String → Option String
  | [], _ => none
  | f :: rest, p =>
      match List.lookup p f with
      | some u => some u
      | none => resolveStack rest p

/-- Modelled from the spec: `push_scope(new_bindings)` layers the new
bindings over the current context, shadowing prefix collisions. -/
def pushScope (b : Namespace) (c : List Namespace) : List Namespace :=
  b :: c

/-- Modelled from the spec: `pop_scope()` discards the most recently
pushed layer, restoring the parent context. -/
def popScope (c : List Namespace) : List Namespace :=
  c.tail

/-- Whether a qualified name's prefix, if any, resolves in the given
namespace scope stack. -/
def pfxOk (stack : List Namespace) (n : Name) : Bool :=
  match n.pfx with
  | none => true
  | some p => (resolveStack stack p).isSome

/-- Modelled from the spec: one transition of the event stream
contract's state machine (§4.3 of the spec).  In `start`, events other
than `StartDocument` are handled as in `inProlog`, the default
document declaration being assumed; every event in `ended` is fatal. -/
def step (s : ContractState) (e : XmlEvent) :
    Except XmlError ContractState :=
  if s.phase = .ended then .error .structuralViolation else
  match e with
  | .StartDocument _ _ _ =>
      if s.phase = .start then .ok { s with phase := .inProlog }
      else .error .structuralViolation
  | .EndDocument =>
      if s.phase = .afterRoot ∨ s.phase = .inProlog ∨ s.phase = .start
      then .ok { s with phase := .ended }
      else .error .structuralViolation
  | .ProcessingInstruction _ _ =>
      .ok { s with phase := if s.phase = .start then .inProlog else s.phase }
  | .Comment _ =>
      .ok { s with phase := if s.phase = .start then .inProlog else s.phase }
  | .StartElement n attrs ns =>
      if s.phase = .start ∨ s.phase = .inProlog ∨ s.phase = .inElement
      then
        let stack' := pushScope ns s.nsStack
        if pfxOk stack' n && attrs.all (fun a => pfxOk stack' a.name)
        then .ok { phase := .inElement, eltStack := n :: s.eltStack,
                   nsStack := stack' }
        else .error .unboundPfx
      else .error .structuralViolation
  | .EndElement n =>
      if s.phase = .inElement then
        match s.eltStack with
        | [] => .error .structuralViolation
        | top :: rest =>
            if top = n then
              .ok { phase := if rest.isEmpty then .afterRoot else .inElement,
                    eltStack := rest, nsStack := popScope s.nsStack }
            else .error .structuralViolation
      else .error .structuralViolation
  | .CData _ =>
      if s.phase = .inElement then .ok s else .error .structuralViolation
  | .Characters _ =>
      if s.phase = .inElement then .ok s else .error .structuralViolation
  | .Whitespace _ =>
      if s.phase = .inElement then .ok s else .error .structuralViolation

/-- Modelled from the spec: the initial state, before any event. -/
def initState : ContractState := ⟨.start, [], []⟩

/-- Run the contract from a given state over a sequence of events,
stopping at the first violation. -/
def runFrom (s : ContractState) : List XmlEvent → Except XmlError ContractState
  | [] => .ok s
  | e :: es =>
      match step s e with
      | .ok s' => runFrom s' es
      | .error err => .error err

/-- Run the contract over a whole event sequence from the initial
state. -/
def runContract (es : List XmlEvent) : Except XmlError ContractState :=
  runFrom initState es

/-- Scenario A of the spec: a minimal well-formed document sequence. -/
def scenarioA : List XmlEvent :=
  [.StartDocument .Version10 none none,
   .StartElement sampleName [] [],
   .EndElement sampleName,
   .EndDocument]

/-- C1: the Event type is a closed tagged union of exactly nine kinds,
each carrying exactly the payload fields of the spec, and every event
value falls under exactly one of them: its kind equals a given tag iff
it is built by the corresponding constructor from some payload. -/
theorem xmlEvent_closed_nine_kinds (e : XmlEvent) :
    (kindOf e = .startDocument ↔
      ∃ v enc sa, e = .StartDocument v enc sa)
    ∧ (kindOf e = .endDocument ↔ e = .EndDocument)
    ∧ (kindOf e = .processingInstruction ↔
      ∃ t d, e = .ProcessingInstruction t d)
    ∧ (kindOf e = .startElement ↔ ∃ n a ns, e = .StartElement n a ns)
    ∧ (kindOf e = .endElement ↔ ∃ n, e = .EndElement n)
    ∧ (kindOf e = .cdata ↔ ∃ t, e = .CData t)
    ∧ (kindOf e = .comment ↔ ∃ t, e = .Comment t)
    ∧ (kindOf e = .characters ↔ ∃ t, e = .Characters t)
    ∧ (kindOf e = .whitespace ↔ ∃ t, e = .Whitespace t) := by
  cases e <;> simp [kindOf]

/-- C3: constructing an event never fails; in particular a
`StartElement` whose attribute list holds two attributes with the same
name is a perfectly constructible event value. -/
theorem startElement_dup_attrs_constructible :
    ∃ e : XmlEvent, startElementDupOk e = true :=
  ⟨.StartElement sampleName [attrX1, attrX2] [], by decide⟩

/-- Field-wise name comparison agrees with propositional equality. -/
theorem beqName_iff (a b : Name) : beqName a b = true ↔ a = b := by
  cases a; cases b
  simp [beqName, and_assoc]

/-- Field-wise attribute comparison agrees with propositional
equality. -/
theorem beqAttr_iff (a b : Attribute) : beqAttr a b = true ↔ a = b := by
  cases a; cases b
  simp [beqAttr, beqName_iff]

/-- Position-wise attribute-list comparison agrees with propositional
equality. -/
theorem beqAttrList_iff :
    ∀ xs ys : List Attribute, beqAttrList xs ys = true ↔ xs = ys
  | [], [] => by simp [beqAttrList]
  | [], _ :: _ => by simp [beqAttrList]
  | _ :: _, [] => by simp [beqAttrList]
  | x :: xs, y :: ys => by
      simp [beqAttrList, beqAttr_iff, beqAttrList_iff xs ys]

/-- Version-marker comparison agrees with propositional equality. -/
theorem beqVer_iff (a b : XmlVersion) : beqVer a b = true ↔ a = b := by
  cases a <;> cases b <;> simp [beqVer]

/-- C2: equality on events is structural: the derived field-wise
comparison returns `true` exactly when the two events have the same
variant tag and equal corresponding field values, i.e. exactly when
they are equal. -/
theorem xmlEvent_beq_iff (e1 e2 : XmlEvent) :
    XmlEvent.beq e1 e2 = true ↔ e1 = e2 := by
  cases e1 <;> cases e2 <;>
    simp [XmlEvent.beq, beqName_iff, beqAttrList_iff, beqVer_iff, and_assoc]

/-- Cloning a qualified name is the identity. -/
theorem cloneName_eq (n : Name) : cloneName n = n := rfl

/-- Cloning an attribute is the identity. -/
theorem cloneAttr_eq (a : Attribute) : cloneAttr a = a := rfl

/-- Cloning a namespace mapping is the identity. -/
theorem cloneNs_eq (ns : Namespace) : cloneNs ns = ns := List.map_id ns

/-- Cloning an attribute list is the identity. -/
theorem cloneAttrList_eq (l : List Attribute) : l.map cloneAttr = l :=
  List.map_id l

/-- C9: cloning is equality-preserving: the field-wise copy of any
event is equal to the event itself. -/
theorem xmlEvent_clone_eq (e : XmlEvent) : XmlEvent.clone e = e := by
  cases e <;>
    simp [XmlEvent.clone, cloneName_eq, cloneAttr_eq, cloneNs_eq,
      cloneAttrList_eq]

/-- C10: attribute order is significant for event equality: two
`StartElement` events with the same name, the same namespace snapshot
and the same multiset of attributes, listed in different orders,
compare unequal. -/
theorem startElement_attr_order_significant :
    List.Perm [attrX1, attrY] [attrY, attrX1]
    ∧ XmlEvent.StartElement sampleName [attrX1, attrY] []
        ≠ XmlEvent.StartElement sampleName [attrY, attrX1] [] := by
  constructor
  · exact List.Perm.swap attrY attrX1 []
  · decide

/-- C7 counterexample: a `Whitespace` event whose payload is not pure
whitespace is a perfectly well-typed event value, so the claim that
every `Whitespace` event carries only whitespace fails on the event
model. -/
theorem whitespace_payload_not_enforced :
    kindOf (XmlEvent.Whitespace "abc") = EventKind.whitespace
    ∧ wsPayloadPure (XmlEvent.Whitespace "abc") = false := by
  exact ⟨rfl, by decide⟩

/-- C7 amended: the event model does not restrict the `Whitespace`
payload (a `Whitespace` event with non-whitespace text is
constructible), while `Whitespace` and `Characters` remain mutually
exclusive as event values: no event is both. -/
theorem whitespace_characters_mutually_exclusive :
    (∃ e : XmlEvent, kindOf e = EventKind.whitespace
      ∧ wsPayloadPure e = false)
    ∧ ∀ s t : String, XmlEvent.Whitespace s ≠ XmlEvent.Characters t := by
  refine ⟨⟨XmlEvent.Whitespace "abc", rfl, by decide⟩, ?_⟩
  intro s t h
  exact XmlEvent.noConfusion h

/-- C6: namespace scope push/pop is an exact round trip: popping the
scope pushed over a context restores the context bit for bit, every
resolution is restored, a binding introduced only by the pushed frame
wins while pushed (shadowing) and is unresolvable once the context it
was pushed over had no such binding and the frame is popped. -/
theorem pushScope_popScope_roundtrip (c : List Namespace) (b : Namespace) :
    popScope (pushScope b c) = c
    ∧ (∀ p, resolveStack (popScope (pushScope b c)) p = resolveStack c p)
    ∧ (∀ p u, List.lookup p b = some u →
        resolveStack (pushScope b c) p = some u)
    ∧ (∀ p, List.lookup p b = none →
        resolveStack (pushScope b c) p = resolveStack c p)
    ∧ (∀ p, resolveStack c p = none →
        resolveStack (popScope (pushScope b c)) p = none) := by
  refine ⟨rfl, fun p => rfl, ?_, ?_, ?_⟩
  · intro p u h
    simp [pushScope, resolveStack, h]
  · intro p h
    simp [pushScope, resolveStack, h]
  · intro p h
    simpa [popScope, pushScope] using h

/-- Witness for C6 at a concrete context: a binding pushed for the
empty context resolves while pushed. -/
theorem pushScope_popScope_roundtrip_witness :
    resolveStack (pushScope [("p", "u")] []) "p" = some "u" :=
  (pushScope_popScope_roundtrip [] [("p", "u")]).2.2.1 "p" "u" rfl

/-- C4: the `EndElement` transition of the contract: legal only in the
`inElement` phase with a non-empty element stack and a name equal to
the stack top, in which case the element and namespace frames are
popped and the phase becomes `afterRoot` exactly when the stack
empties; a name mismatch, a phase other than `inElement`, or an empty
element stack is a fatal structural violation. -/
theorem endElement_transition (s : ContractState) (n : Name) :
    (s.phase = Phase.inElement →
      ∀ top rest, s.eltStack = top :: rest →
        (top = n →
          step s (XmlEvent.EndElement n) =
            Except.ok
              { phase := if rest.isEmpty then Phase.afterRoot
                         else Phase.inElement,
                eltStack := rest, nsStack := popScope s.nsStack })
        ∧ (top ≠ n →
          step s (XmlEvent.EndElement n) =
            Except.error XmlError.structuralViolation))
    ∧ (s.phase ≠ Phase.inElement →
        step s (XmlEvent.EndElement n) =
          Except.error XmlError.structuralViolation)
    ∧ (s.eltStack = [] →
        step s (XmlEvent.EndElement n) =
          Except.error XmlError.structuralViolation) := by
  obtain ⟨ph, elts, nss⟩ := s
  refine ⟨?_, ?_, ?_⟩
  · intro hph top rest hstack
    simp only at hph hstack
    subst hph
    subst hstack
    constructor
    · intro he
      subst he
      simp [step]
    · intro hne
      simp [step, hne]
  · intro hph
    simp only at hph
    cases ph <;> (first | exact absurd rfl hph | simp [step])
  · intro hstack
    simp only at hstack
    subst hstack
    cases ph <;> simp [step]

/-- Witness for C4 at a concrete state: closing the only open element
`a` pops the stack and moves to `afterRoot`. -/
theorem endElement_transition_witness :
    step ⟨Phase.inElement, [sampleName], [([] : Namespace)]⟩
        (XmlEvent.EndElement sampleName)
      = Except.ok
          { phase := if ([] : List Name).isEmpty then Phase.afterRoot
                     else Phase.inElement,
            eltStack := [],
            nsStack := popScope [([] : Namespace)] } :=
  ((endElement_transition ⟨Phase.inElement, [sampleName], [([] : Namespace)]⟩
      sampleName).1 rfl sampleName [] rfl).1 rfl

/-- One step preserves the depth invariant: outside the `inElement`
phase the element stack is empty. -/
theorem step_stack_inv (s s' : ContractState) (e : XmlEvent)
    (hs : s.phase ≠ Phase.inElement → s.eltStack = [])
    (h : step s e = Except.ok s') :
    s'.phase ≠ Phase.inElement → s'.eltStack = [] := by
  obtain ⟨ph, elts, nss⟩ := s
  simp only at hs
  cases ph <;> cases e <;> simp_all [step]
  all_goals try (subst h; simp)
  all_goals
    (repeat' split at h) <;>
    (try simp only [Except.ok.injEq] at h) <;>
    first
      | (subst h; simp_all)
      | simp_all

/-- Running from any state satisfying the depth invariant preserves it. -/
theorem runFrom_stack_inv :
    ∀ (es : List XmlEvent) (s s' : ContractState),
      (s.phase ≠ Phase.inElement → s.eltStack = []) →
      runFrom s es = Except.ok s' →
      (s'.phase ≠ Phase.inElement → s'.eltStack = [])
  | [], s, s', hs, h => by
      simp [runFrom] at h
      exact h ▸ hs
  | e :: es, s, s', hs, h => by
      simp only [runFrom] at h
      cases hstep : step s e with
      | error err => rw [hstep] at h; exact absurd h (by simp)
      | ok s1 =>
          rw [hstep] at h
          exact runFrom_stack_inv es s1 s' (step_stack_inv s s1 e hs hstep) h

/-- C5: for every event sequence accepted in full by the contract (the
run succeeds and ends in the terminal `ended` phase), the element-stack
depth after processing the entire sequence is 0. -/
theorem wellFormed_final_depth_zero (es : List XmlEvent)
    (s : ContractState) (h1 : runContract es = Except.ok s)
    (h2 : s.phase = Phase.ended) : s.eltStack.length = 0 := by
  have hinv := runFrom_stack_inv es initState s (by simp [initState]) h1
  have hempty : s.eltStack = [] := hinv (by simp [h2])
  simp [hempty]

/-- Witness for C5 at Scenario A of the spec: the minimal well-formed
document run ends with depth 0. -/
theorem wellFormed_final_depth_zero_witness :
    (⟨Phase.ended, [], []⟩ : ContractState).eltStack.length = 0 :=
  wellFormed_final_depth_zero scenarioA ⟨Phase.ended, [], []⟩ rfl rfl
